import Mathlib

/-!
Shallow embedding of the nexun-backend realtime collaboration services
(edge gateway, chat realtime engine, video signaling engine), covering the
store-backed room/membership/message operations, presence tracking, room-code
generation, WebRTC signal relay and the timestamp normalization helper.
Definitions are translated from the TypeScript sources; theorems settle the
frozen behavioural claims against them.
-/

namespace JsUtil

/-- JavaScript `a || d` on numbers, restricted to the naturals that occur in
the sources: `0` is falsy (it also encodes an absent field), every other
value is returned unchanged. -/
def orNat (a d : Nat) : Nat :=
  if a = 0 then d else a

/-- JavaScript `a || d` on strings: the empty string is falsy (it also
encodes an absent field). -/
def orStr (a d : String) : String :=
  if a = "" then d else a

/-- JavaScript falsiness of an optional string: `undefined` and `""` are
falsy. -/
def optFalsy : Option String → Bool
  | none => true
  | some s => s = ""

/-- JavaScript `String.prototype.toUpperCase()` (ASCII case mapping, which
covers the room-code alphabet entirely). -/
def toUpperStr (s : String) : String := String.mk (s.data.map Char.toUpper)

end JsUtil

/-! ### Timestamp normalization (`ChatService.convertToDate`, identical in
`VideoService.convertToDate`) -/

namespace TsConv

/-- The dynamic (`unknown`) values the timestamp converter distinguishes.
Dates and Firestore Timestamps are represented by the epoch-millisecond
instant they denote (`Timestamp.toDate` returns exactly that instant);
`nan` is the IEEE NaN, kept separate because `typeof NaN === "number"`
while NaN is falsy. -/
inductive TsInput where
  | null
  | undef
  | bool (b : Bool)
  | num (n : Int)
  | nan
  | date (ms : Int)
  | fsTimestamp (ms : Int)
  | str (s : String)
  | otherObj
  deriving Repr, DecidableEq

/-- JavaScript falsiness for the inputs above: `null`, `undefined`, `false`,
`0`, `NaN` and `""` are falsy; objects (dates, timestamps) are always
truthy. -/
def falsy : TsInput → Bool
  | .null => true
  | .undef => true
  | .bool b => !b
  | .num n => n = 0
  | .nan => true
  | .str s => s = ""
  | _ => false

/-- `ChatService.convertToDate` / `VideoService.convertToDate`: normalizes a
raw store timestamp to an instant (epoch milliseconds). `parse` is the
JavaScript `new Date(string)` parser (returning `none` on an unparseable
string, where `isNaN(parsed.getTime())`); `nowMs` is the current clock,
returned by every `new Date()` fallback. -/
def convertToDate (parse : String → Option Int) (nowMs : Int) : TsInput → Int
  | t =>
    if falsy t then nowMs
    else
      match t with
      | .date ms => ms
      | .fsTimestamp ms => ms
      | .num n => if n > 1000000000000 then n else n * 1000
      | .str s =>
        match parse s with
        | some ms => ms
        | none => nowMs
      | _ => nowMs

end TsConv

/-! ### Edge gateway health endpoint (`api-gateway/src/index.ts`) -/

namespace Gateway

/-- The fragment of JSON the gateway health handler produces. -/
inductive Json where
  | str (s : String)
  | obj (fields : List (String × Json))

/-- Field lookup in a JSON object (first match). -/
def Json.lookup (j : Json) (key : String) : Option Json :=
  match j with
  | .str _ => none
  | .obj fields => (fields.find? (fun p => p.1 = key)).map Prod.snd

/-- Top-level key list of a JSON object. -/
def Json.keys : Json → List String
  | .str _ => []
  | .obj fields => fields.map Prod.fst

/-- Gateway configuration: the three upstream service URLs
(`AUTH_SERVICE_URL`, `CHAT_SERVICE_URL`, `VIDEO_SERVICE_URL`). -/
structure Config where
  authUrl : String
  chatUrl : String
  videoUrl : String
  deriving Repr, DecidableEq

/-- The `GET /health` handler body: a pure function of the configuration and
the current clock reading (`new Date().toISOString()`). -/
def healthHandler (cfg : Config) (nowIso : String) : Json :=
  .obj [
    ("status", .str "ok"),
    ("service", .str "api-gateway"),
    ("timestamp", .str nowIso),
    ("services", .obj [
      ("auth", .str cfg.authUrl),
      ("chat", .str cfg.chatUrl),
      ("video", .str cfg.videoUrl)
    ])
  ]

end Gateway

/-! ### Chat presence tracking (`ChatController.handleConnection` /
`handleDisconnection`) -/

namespace Presence

/-- The `connectedUsers` registry: `userId -> Set<socketId>`, as an
association list in insertion order. -/
abbrev PMap := List (String × List String)

/-- Lookup of a user entry (`connectedUsers.get`). -/
def lookup (m : PMap) (u : String) : Option (List String) :=
  (m.find? (fun p => p.1 = u)).map Prod.snd

/-- `Set.add`: appends the socket id if it is not already present. -/
def setAdd (l : List String) (s : String) : List String :=
  if s ∈ l then l else l ++ [s]

/-- Replace the entry of `u` by `v` (every occurrence; keys are unique in
any map built by the handlers). -/
def setEntry (m : PMap) (u : String) (v : List String) : PMap :=
  m.map (fun p => if p.1 = u then (p.1, v) else p)

/-- Delete the entry of `u`. -/
def delEntry (m : PMap) (u : String) : PMap :=
  m.filter (fun p => p.1 ≠ u)

/-- Presence events broadcast to the other sessions. -/
inductive PEvent where
  | online (userId : String)
  | offline (userId : String)
  deriving Repr, DecidableEq

/-- `ChatController.handleConnection`, restricted to its presence effect:
ensure an entry exists for the user, add the socket id to it, then
`socket.broadcast.emit("user:online", { userId })` — unconditionally. -/
def handleConnection (m : PMap) (userId sid : String) : PMap × List PEvent :=
  let m1 :=
    match lookup m userId with
    | none => m ++ [(userId, [])]
    | some _ => m
  let m2 :=
    match lookup m1 userId with
    | none => m1
    | some socks => setEntry m1 userId (setAdd socks sid)
  (m2, [.online userId])

/-- `ChatController.handleDisconnection`: remove the socket id from the
user's entry; if the entry becomes empty, delete it and broadcast
`user:offline`. -/
def handleDisconnection (m : PMap) (userId sid : String) : PMap × List PEvent :=
  match lookup m userId with
  | none => (m, [])
  | some socks =>
    let socks' := socks.erase sid
    if socks'.isEmpty then
      (delEntry m userId, [.offline userId])
    else
      (setEntry m userId socks', [])

/-- Whether the connecting session would be the first session registered for
the user (the condition the specification attaches to the `user:online`
broadcast). -/
def firstSession (m : PMap) (u : String) : Bool :=
  match lookup m u with
  | none => true
  | some socks => socks.isEmpty

end Presence

/-! ### Video engine (`VideoService`, `VideoController` of part_002) -/

namespace Video

/-- `CreateVideoRoomData`: `maxParticipants = 0` and `visibility = ""` encode
absent fields (both are JavaScript-falsy). -/
structure CreateReq where
  name : String
  maxParticipants : Nat
  visibility : String
  deriving Repr, DecidableEq

/-- A `videoRooms` document as stored. -/
structure VRoomDoc where
  id : String
  name : String
  hostId : String
  participants : List String
  maxParticipants : Nat
  visibility : String
  code : String
  deriving Repr, DecidableEq

/-- A `videoParticipants` document (keyed `roomId_userId`). -/
structure VPartDoc where
  roomId : String
  userId : String
  socketId : String
  isAudioEnabled : Bool
  isVideoEnabled : Bool
  isScreenSharing : Bool
  deriving Repr, DecidableEq

/-- The video portion of the store. -/
structure VStore where
  rooms : List VRoomDoc
  parts : List VPartDoc
  deriving Repr, DecidableEq

def emptyStore : VStore := ⟨[], []⟩

/-- The `maxParticipants` every read path reports:
`data?.maxParticipants || 10` in `VideoService.getRoom` / `getRoomByCode`. -/
def VRoomDoc.readMax (d : VRoomDoc) : Nat := JsUtil.orNat d.maxParticipants 10

def findRoom (s : VStore) (rid : String) : Option VRoomDoc :=
  s.rooms.find? (fun d => d.id = rid)

def findRoomByCode (s : VStore) (c : String) : Option VRoomDoc :=
  s.rooms.find? (fun d => d.code = c)

/-- `.doc(id).set(doc)` / `.doc(id).update(...)`: replace the document with
that id (Firestore ids are unique keys). -/
def upsertRoom (s : VStore) (d : VRoomDoc) : VStore :=
  { s with rooms := d :: s.rooms.filter (fun r => r.id ≠ d.id) }

def upsertPart (s : VStore) (p : VPartDoc) : VStore :=
  { s with parts := p :: s.parts.filter (fun q => ¬(q.roomId = p.roomId ∧ q.userId = p.userId)) }

def removePart (s : VStore) (rid uid : String) : VStore :=
  { s with parts := s.parts.filter (fun q => ¬(q.roomId = rid ∧ q.userId = uid)) }

/-- `VideoService.createRoom` (the `videoRooms` write): the room document,
with `maxParticipants: data.maxParticipants || 10` and
`visibility: data.visibility || "public"`. `roomId` and `roomCode` stand for
the generated document id and random 6-character code; the optional
associated chat room goes to the chat collection and never touches
`videoRooms`. -/
def createRoomDoc (data : CreateReq) (hostId roomId roomCode : String) : VRoomDoc :=
  { id := roomId
    name := data.name
    hostId := hostId
    participants := [hostId]
    maxParticipants := JsUtil.orNat data.maxParticipants 10
    visibility := JsUtil.orStr data.visibility "public"
    code := roomCode }

/-- `VideoService.addParticipant`: re-reads the room, throws on a missing
room or when `room.participants.length >= (room.maxParticipants || 10)`,
otherwise `arrayUnion`s the user when absent and writes the participant
document. -/
def addParticipant (s : VStore) (rid uid sid : String) : Except String VStore :=
  match findRoom s rid with
  | none => .error "Room not found"
  | some d =>
    if d.participants.length ≥ JsUtil.orNat d.readMax 10 then
      .error "Room is full"
    else
      let d' := if uid ∈ d.participants then d
                else { d with participants := d.participants ++ [uid] }
      .ok (upsertPart (upsertRoom s d')
            { roomId := rid, userId := uid, socketId := sid,
              isAudioEnabled := true, isVideoEnabled := true, isScreenSharing := false })

/-- `VideoService.removeParticipant`: `arrayRemove` the user and delete the
participant document; the update rejects when the room document is missing. -/
def removeParticipant (s : VStore) (rid uid : String) : Except String VStore :=
  match findRoom s rid with
  | none => .error "Failed to remove participant"
  | some d =>
    let d' := { d with participants := d.participants.filter (fun p => p ≠ uid) }
    .ok (removePart (upsertRoom s d') rid uid)

/-- Events the video controller emits (reduced to name and identifiers). -/
inductive VEvent where
  | error (code : String)
  | roomCreated (roomId : String)
  | userJoined (roomId userId : String)
  | roomJoined (roomId : String)
  | userLeft (roomId userId : String)
  | roomLeft (roomId : String)
  deriving Repr, DecidableEq

/-- `VideoController.handleCreateRoom`: forces `visibility: "public"` and
`maxParticipants: 8`, persists the room, then adds the creator as first
participant; a late failure surfaces as `CREATE_ROOM_ERROR`. -/
def handleCreateRoom (s : VStore) (req : CreateReq) (hostId sid roomId roomCode : String) :
    VStore × List VEvent :=
  let doc := createRoomDoc { req with visibility := "public", maxParticipants := 8 }
              hostId roomId roomCode
  let s1 := upsertRoom s doc
  match addParticipant s1 roomId hostId sid with
  | .ok s2 => (s2, [.roomCreated roomId])
  | .error _ => (s1, [.error "CREATE_ROOM_ERROR"])

/-- `VideoController.handleJoinRoom` room resolution: by code when a code is
supplied, else by id. -/
def resolveRoom (s : VStore) (roomId code : Option String) : Option VRoomDoc :=
  if JsUtil.optFalsy code = false then findRoomByCode s (code.getD "")
  else if JsUtil.optFalsy roomId = false then findRoom s (roomId.getD "")
  else none

/-- `VideoController.handleJoinRoom`: resolve the room
(`ROOM_NOT_FOUND` when neither id nor code resolves), reject with
`ROOM_FULL` when `room.participants.length >= (room.maxParticipants || 8)`,
otherwise add the participant and emit the join events. -/
def handleJoinRoom (s : VStore) (uid sid : String) (roomId code : Option String) :
    VStore × List VEvent :=
  match resolveRoom s roomId code with
  | none => (s, [.error "ROOM_NOT_FOUND"])
  | some d =>
    if d.participants.length ≥ JsUtil.orNat d.readMax 8 then
      (s, [.error "ROOM_FULL"])
    else
      match addParticipant s d.id uid sid with
      | .error _ => (s, [.error "JOIN_ROOM_ERROR"])
      | .ok s1 => (s1, [.userJoined d.id uid, .roomJoined d.id])

/-- `VideoController.handleLeaveRoom` / `leaveRoom`: remove the participant
(the failing update on a missing room surfaces as `LEAVE_ROOM_ERROR`) and
emit the leave events. -/
def handleLeaveRoom (s : VStore) (uid rid : String) : VStore × List VEvent :=
  match removeParticipant s rid uid with
  | .error _ => (s, [.error "LEAVE_ROOM_ERROR"])
  | .ok s1 => (s1, [.userLeft rid uid, .roomLeft rid])

/-- The client-triggerable mutations of the video store. -/
inductive VideoOp where
  | create (req : CreateReq) (hostId sid roomId roomCode : String)
  | join (uid sid : String) (roomId code : Option String)
  | leave (uid rid : String)

def step (s : VStore) : VideoOp → VStore × List VEvent
  | .create req host sid rid code => handleCreateRoom s req host sid rid code
  | .join uid sid rid code => handleJoinRoom s uid sid rid code
  | .leave uid rid => handleLeaveRoom s uid rid

/-- Execution of an operation sequence from the empty store. -/
def execOps (ops : List VideoOp) : VStore :=
  ops.foldl (fun s op => (step s op).1) emptyStore

/-- Capacity invariant: every room document respects its (read-path)
participant cap. -/
def capacityOk (s : VStore) : Prop :=
  ∀ d ∈ s.rooms, d.participants.length ≤ d.readMax

/-- Every room document was created through the forced-8 controller path. -/
def capEight (s : VStore) : Prop :=
  ∀ d ∈ s.rooms, d.maxParticipants = 8

/-- The capacity invariant as the data model states it: every room document
respects its stored participant cap. -/
def capacityLiteral (s : VStore) : Prop :=
  ∀ d ∈ s.rooms, d.participants.length ≤ d.maxParticipants

end Video

/-! ### WebRTC signaling relay (`VideoController.handleSignal` of part_003,
the variant with targeted-offer enforcement and duplicate suppression) -/

namespace Signal

/-- A `video:signal` request as received, together with the sending session.
`payload` is the serialized signal body (`data`); `none` encodes an absent
field. -/
structure SignalInput where
  type : String
  roomId : String
  targetUserId : Option String
  payload : Option String
  senderUid : String
  senderSocket : String
  deriving Repr, DecidableEq

/-- The environment the handler consults: the store, the in-memory
`recentSignals` registry (pairs of room id and signal id currently inside
their suppression window) and the socket rooms
(`io.in(roomId).fetchSockets()` membership as (roomId, socketId) pairs). -/
structure Ctx where
  store : Video.VStore
  recent : List (String × String)
  subs : List (String × String)
  deriving Repr, DecidableEq

/-- What the handler does with one signal. -/
inductive SignalResult where
  | errorCode (code : String)
  | dropped
  | delivered (sockets : List String)
  deriving Repr, DecidableEq

/-- `makeSignalId`: `type:fromUserId:(targetUserId || "broadcast"):snippet`
with a 200-character payload snippet. -/
def makeSignalId (type fromUserId : String) (targetUserId : Option String)
    (payload : Option String) : String :=
  let target := if JsUtil.optFalsy targetUserId then "broadcast" else targetUserId.getD ""
  let snippet := (payload.getD "").take 200
  type ++ ":" ++ fromUserId ++ ":" ++ target ++ ":" ++ snippet

/-- `io.in(roomId).fetchSockets()`: the sockets joined to the room. -/
def fetchSockets (c : Ctx) (rid : String) : List String :=
  (c.subs.filter (fun p => p.1 = rid)).map Prod.snd

/-- `VideoService.getParticipant` on the `videoParticipants` collection. -/
def findPart (s : Video.VStore) (rid uid : String) : Option Video.VPartDoc :=
  s.parts.find? (fun p => p.roomId = rid ∧ p.userId = uid)

/-- `VideoController.handleSignal` (part_003): validate the signal type and
presence of room and data, authorize the sender, require a target for
offers/answers, suppress recently seen duplicates, then relay targeted
(to the target participant socket) or broadcast (room minus sender,
ice candidates only). -/
def handleSignal (c : Ctx) (inp : SignalInput) : SignalResult :=
  if ¬(inp.type = "offer" ∨ inp.type = "answer" ∨ inp.type = "ice-candidate") then
    .errorCode "INVALID_SIGNAL_TYPE"
  else if inp.roomId = "" then
    .errorCode "MISSING_ROOM"
  else if JsUtil.optFalsy inp.payload then
    .errorCode "MISSING_SIGNAL_DATA"
  else
    match Video.findRoom c.store inp.roomId with
    | none => .errorCode "ROOM_NOT_FOUND"
    | some room =>
      if inp.senderUid ∉ room.participants then
        .errorCode "NOT_IN_ROOM"
      else if (inp.type = "offer" ∨ inp.type = "answer") ∧
          JsUtil.optFalsy inp.targetUserId then
        .errorCode "MUST_INCLUDE_TARGET"
      else
        let sigId := makeSignalId inp.type inp.senderUid inp.targetUserId inp.payload
        if (inp.roomId, sigId) ∈ c.recent then
          .dropped
        else if JsUtil.optFalsy inp.targetUserId = false then
          match findPart c.store inp.roomId (inp.targetUserId.getD "") with
          | some p =>
            if p.socketId ≠ "" then .delivered [p.socketId]
            else .errorCode "TARGET_USER_NOT_FOUND"
          | none => .errorCode "TARGET_USER_NOT_FOUND"
        else if inp.type = "ice-candidate" then
          .delivered ((fetchSockets c inp.roomId).filter (fun sid => sid ≠ inp.senderSocket))
        else
          .errorCode "SIGNAL_REQUIRES_TARGET"

end Signal

/-! ### Chat engine (`ChatService`, `ChatController`) -/

namespace Chat

/-- A `rooms` document as stored. `code` is `none` when the field is absent
(public rooms). -/
structure CRoomDoc where
  id : String
  name : String
  type : String
  visibility : String
  code : Option String
  participants : List String
  createdBy : String
  deriving Repr, DecidableEq

/-- A `messages` document; `timestamp` is the (already normalized) instant. -/
structure MsgDoc where
  id : String
  roomId : String
  senderId : String
  content : String
  timestamp : Nat
  deriving Repr, DecidableEq

/-- The chat portion of the store. -/
structure ChatStore where
  rooms : List CRoomDoc
  messages : List MsgDoc
  deriving Repr, DecidableEq

/-- The read-boundary defaults `ChatService.getRoom` applies
(`data?.type || "group"`, `data?.visibility || "public"`). -/
def readRoom (d : CRoomDoc) : CRoomDoc :=
  { d with type := JsUtil.orStr d.type "group",
           visibility := JsUtil.orStr d.visibility "public" }

/-- `ChatService.getRoom` on a cache-miss read. -/
def getRoom (s : ChatStore) (rid : String) : Option CRoomDoc :=
  (s.rooms.find? (fun d => d.id = rid)).map readRoom

/-- `ChatService.isParticipant`:
`room?.participants.includes(userId) || false`. -/
def isParticipant (s : ChatStore) (rid uid : String) : Bool :=
  match getRoom s rid with
  | none => false
  | some r => uid ∈ r.participants

/-- `ChatService.addParticipant`: `arrayUnion` the user on the room document
(the update rejects when the document is missing). -/
def addParticipant (s : ChatStore) (rid uid : String) : Except String ChatStore :=
  match s.rooms.find? (fun d => d.id = rid) with
  | none => .error "Failed to add participant"
  | some d =>
    let d' := if uid ∈ d.participants then d
              else { d with participants := d.participants ++ [uid] }
    .ok { s with rooms := d' :: s.rooms.filter (fun r => r.id ≠ rid) }

/-- Outcome of a `room:join` request, as seen by the requesting session. -/
inductive CJoinRes where
  | error (code : String)
  | joined (roomId : String)
  deriving Repr, DecidableEq

/-- The tail of `ChatController.handleJoinRoom` once the code checks have
passed: add the user as participant when absent, then emit `room:joined`. -/
def joinCommit (s : ChatStore) (uid rid : String) (isPart : Bool) :
    CJoinRes × ChatStore :=
  if isPart then (.joined rid, s)
  else
    match addParticipant s rid uid with
    | .ok s1 => (.joined rid, s1)
    | .error _ => (.error "JOIN_ROOM_ERROR", s)

/-- `ChatController.handleJoinRoom`: `ROOM_NOT_FOUND` for an unknown id; for
a private room and a caller who is not yet a participant, a missing code is
`CODE_REQUIRED` and a code whose upper-casing differs from the stored code is
`INVALID_CODE`; otherwise the join proceeds. -/
def handleJoinRoom (s : ChatStore) (uid rid : String) (code : Option String) :
    CJoinRes × ChatStore :=
  match getRoom s rid with
  | none => (.error "ROOM_NOT_FOUND", s)
  | some room =>
    let isPart := isParticipant s rid uid
    if room.visibility = "private" ∧ isPart = false then
      if JsUtil.optFalsy code then
        (.error "CODE_REQUIRED", s)
      else if room.code ≠ some (JsUtil.toUpperStr (code.getD "")) then
        (.error "INVALID_CODE", s)
      else joinCommit s uid rid isPart
    else joinCommit s uid rid isPart

end Chat

/-! ### Private-room code generation (`ChatService.generateRoomCode`,
`ChatService.createRoom`) -/

namespace ChatCode

/-- `"ABCDEFGHIJKLMNOPQRSTUVWXYZ0123456789"`. -/
def codeAlphabet : List Char :=
  ['A', 'B', 'C', 'D', 'E', 'F', 'G', 'H', 'I', 'J', 'K', 'L', 'M',
   'N', 'O', 'P', 'Q', 'R', 'S', 'T', 'U', 'V', 'W', 'X', 'Y', 'Z',
   '0', '1', '2', '3', '4', '5', '6', '7', '8', '9']

/-- `ChatService.generateRoomCode` with its six random draws supplied
(`Math.floor(Math.random() * chars.length)` always lands in range, so
`charAt` never falls back). -/
def generateRoomCode (draws : Fin 6 → Fin 36) : String :=
  String.mk ((List.finRange 6).map (fun i => codeAlphabet.getD (draws i).val 'A'))

/-- The retry loop of `ChatService.createRoom`: the candidate at attempt
counter `k` is the k-th generated code, and the loop body regenerates and
increments while the candidate collides and fewer than 10 retries were
spent. -/
def codeLoop (ex : String → Bool) (gen : Nat → String) (code : String) (attempts : Nat) :
    String × Nat :=
  if h : ex code = true ∧ attempts < 10 then
    codeLoop ex gen (gen (attempts + 1)) (attempts + 1)
  else (code, attempts)
termination_by 10 - attempts
decreasing_by omega

/-- `CreateRoomData` for chat rooms (absent strings encoded as `""`). -/
structure CreateRoomData where
  name : String
  type : String
  visibility : String
  participants : List String
  deriving Repr, DecidableEq

/-- `ChatService.createRoom`, with the collision oracle `ex`
(`roomExistsByCode` against the store) and the code sampler `gen` supplied:
validates the required fields, runs the retry loop for private rooms and
throws `"Failed to generate unique room code"` when the attempt counter
reached 10, then assembles the room. -/
def createRoom (data : CreateRoomData) (createdBy roomId : String)
    (ex : String → Bool) (gen : Nat → String) : Except String Chat.CRoomDoc :=
  if data.name = "" ∨ data.type = "" ∨ data.visibility = "" then
    .error "Name, type, and visibility are required"
  else if data.visibility = "private" then
    let r := codeLoop ex gen (gen 0) 0
    if r.2 ≥ 10 then .error "Failed to generate unique room code"
    else .ok { id := roomId, name := data.name, type := data.type,
               visibility := data.visibility, code := some r.1,
               participants := (createdBy :: data.participants).eraseDups,
               createdBy := createdBy }
  else
    .ok { id := roomId, name := data.name, type := data.type,
          visibility := data.visibility, code := none,
          participants := (createdBy :: data.participants).eraseDups,
          createdBy := createdBy }

end ChatCode

/-! ### Chat messages and room leave (`ChatService.getMessages`,
`ChatController.handleGetMessages`, `ChatController.handleLeaveRoom`) -/

namespace Chat

/-- Descending timestamp order (the `orderBy("timestamp", "desc")` sort
key). -/
def tsGE (a b : MsgDoc) : Prop := b.timestamp ≤ a.timestamp

instance : DecidableRel tsGE :=
  fun a b => inferInstanceAs (Decidable (b.timestamp ≤ a.timestamp))

instance : IsTotal MsgDoc tsGE := ⟨fun a b => le_total b.timestamp a.timestamp⟩

instance : IsTrans MsgDoc tsGE := ⟨fun _ _ _ h1 h2 => le_trans h2 h1⟩

/-- Ascending (chronological) timestamp order. -/
def tsLE (a b : MsgDoc) : Prop := a.timestamp ≤ b.timestamp

/-- The messages of one room. -/
def roomMessages (s : ChatStore) (rid : String) : List MsgDoc :=
  s.messages.filter (fun m => m.roomId = rid)

/-- The store's `where roomId == rid, orderBy timestamp desc` query: the
matching documents in descending timestamp order (the store resolves ties;
insertion sort fixes one such resolution). -/
def queryDesc (s : ChatStore) (rid : String) : List MsgDoc :=
  List.insertionSort tsGE (roomMessages s rid)

/-- `ChatService.getMessages` (indexed path): the first `limit` documents of
the descending query, positioned after the cursor document when one is
supplied and exists, then `reverse()` into chronological order. -/
def getMessages (s : ChatStore) (rid : String) (limit : Nat)
    (lastMessageId : Option String) : List MsgDoc :=
  let sorted := queryDesc s rid
  let q :=
    match lastMessageId with
    | none => sorted
    | some lid =>
      if s.messages.any (fun (m : MsgDoc) => m.id = lid) then
        (sorted.dropWhile (fun (m : MsgDoc) => m.id ≠ lid)).drop 1
      else sorted
  (q.take limit).reverse

/-- Outcome of a `messages:get` request. -/
inductive MsgRes where
  | error (code : String)
  | messagesList (msgs : List MsgDoc)
  deriving Repr, DecidableEq

/-- `ChatController.handleGetMessages`: require participation
(`NOT_PARTICIPANT` otherwise); the limit defaults to 50 only when the field
is absent (`limit = 50` destructuring default), so an explicit 0 stays 0. -/
def handleGetMessages (s : ChatStore) (uid rid : String) (limit : Option Nat)
    (lastMessageId : Option String) : MsgRes :=
  if isParticipant s rid uid = false then .error "NOT_PARTICIPANT"
  else .messagesList (getMessages s rid (limit.getD 50) lastMessageId)

/-- Chat engine state: the durable store plus the socket room channel
memberships as (roomId, socketId) pairs. -/
structure EngineState where
  store : ChatStore
  subs : List (String × String)
  deriving Repr, DecidableEq

/-- Events `room:leave` produces, with their recipients. -/
inductive CEvent where
  | userLeftTo (recipients : List String) (roomId userId : String)
  | roomLeftTo (socketId : String) (roomId : String)
  deriving Repr, DecidableEq

/-- The sessions currently subscribed to a room channel. -/
def subscribersOf (st : EngineState) (rid : String) : List String :=
  (st.subs.filter (fun p => p.1 = rid)).map Prod.snd

/-- `ChatController.handleLeaveRoom`: `socket.leave(roomId)`, then
`socket.to(roomId)` receives `room:user-left` and the leaver receives
`room:left`; the handler performs no store access. -/
def handleLeaveRoom (st : EngineState) (uid sid rid : String) :
    EngineState × List CEvent :=
  let subs1 := st.subs.filter (fun p => ¬(p.1 = rid ∧ p.2 = sid))
  let others := (subs1.filter (fun p => p.1 = rid ∧ p.2 ≠ sid)).map Prod.snd
  ({ st with subs := subs1 }, [.userLeftTo others rid uid, .roomLeftTo sid rid])

end Chat

/-! ## Helper lemmas -/

namespace JsUtil

theorem orNat_pos (a d : Nat) (hd : 0 < d) : 0 < orNat a d := by
  unfold orNat
  split
  · exact hd
  · omega

theorem orNat_of_pos (a d : Nat) (ha : 0 < a) : orNat a d = a := by
  unfold orNat
  split
  · omega
  · rfl

end JsUtil

namespace Video

theorem readMax_pos (d : VRoomDoc) : 0 < d.readMax :=
  JsUtil.orNat_pos _ _ (by decide)

theorem mem_upsertRoom {s : VStore} {d d' : VRoomDoc}
    (h : d' ∈ (upsertRoom s d).rooms) : d' = d ∨ d' ∈ s.rooms := by
  simp only [upsertRoom, List.mem_cons, List.mem_filter] at h
  rcases h with h | ⟨h, _⟩
  · exact Or.inl h
  · exact Or.inr h

theorem findRoom_mem {s : VStore} {rid : String} {d : VRoomDoc}
    (h : findRoom s rid = some d) : d ∈ s.rooms :=
  List.mem_of_find?_eq_some h

theorem capacityOk_addParticipant {s s' : VStore} {rid uid sid : String}
    (hok : addParticipant s rid uid sid = .ok s') (hinv : capacityOk s) :
    capacityOk s' := by
  unfold addParticipant at hok
  cases hfind : findRoom s rid with
  | none => simp [hfind] at hok
  | some d =>
    simp only [hfind] at hok
    by_cases hfull : d.participants.length ≥ JsUtil.orNat d.readMax 10
    · simp [hfull] at hok
    · simp only [hfull, if_false, ge_iff_le, not_le] at hok
      rw [JsUtil.orNat_of_pos _ _ (readMax_pos d)] at hfull
      injection hok with hok
      subst hok
      intro x hx
      simp only [upsertPart] at hx
      rcases mem_upsertRoom hx with rfl | hx'
      · by_cases hmem : uid ∈ d.participants
        · simpa [hmem] using hinv d (findRoom_mem hfind)
        · simp only [hmem, if_false, List.length_append, List.length_cons,
            List.length_nil]
          have := hinv d (findRoom_mem hfind)
          have hlt : d.participants.length < d.readMax := by
            omega
          simp only [VRoomDoc.readMax] at *
          omega
      · exact hinv x hx'

theorem capacityOk_removeParticipant {s s' : VStore} {rid uid : String}
    (hok : removeParticipant s rid uid = .ok s') (hinv : capacityOk s) :
    capacityOk s' := by
  unfold removeParticipant at hok
  cases hfind : findRoom s rid with
  | none => simp [hfind] at hok
  | some d =>
    simp only [hfind] at hok
    injection hok with hok
    subst hok
    intro x hx
    simp only [removePart] at hx
    rcases mem_upsertRoom hx with rfl | hx'
    · calc (d.participants.filter (fun p => p ≠ uid)).length
          ≤ d.participants.length := List.length_filter_le _ _
        _ ≤ d.readMax := hinv d (findRoom_mem hfind)
    · exact hinv x hx'

theorem capacityOk_step (s : VStore) (op : VideoOp) (hinv : capacityOk s) :
    capacityOk (step s op).1 := by
  cases op with
  | create req host sid rid code =>
    have hmid : capacityOk (upsertRoom s
        (createRoomDoc { req with visibility := "public", maxParticipants := 8 }
          host rid code)) := by
      intro x hx
      rcases mem_upsertRoom hx with rfl | hx'
      · simp [createRoomDoc, VRoomDoc.readMax, JsUtil.orNat]
      · exact hinv x hx'
    simp only [step, handleCreateRoom]
    cases hadd : addParticipant (upsertRoom s
        (createRoomDoc { req with visibility := "public", maxParticipants := 8 }
          host rid code)) rid host sid with
    | ok s2 => simpa [hadd] using capacityOk_addParticipant hadd hmid
    | error e => simpa [hadd] using hmid
  | join uid sid rid code =>
    simp only [step, handleJoinRoom]
    cases hres : resolveRoom s rid code with
    | none => simpa using hinv
    | some d =>
      by_cases hfull : d.participants.length ≥ JsUtil.orNat d.readMax 8
      · simpa [hfull] using hinv
      · simp only [hfull, if_false]
        cases hadd : addParticipant s d.id uid sid with
        | ok s1 => simpa using capacityOk_addParticipant hadd hinv
        | error e => simpa using hinv
  | leave uid rid =>
    simp only [step, handleLeaveRoom]
    cases hrem : removeParticipant s rid uid with
    | ok s1 => simpa using capacityOk_removeParticipant hrem hinv
    | error e => simpa using hinv

theorem capacityOk_execOps (ops : List VideoOp) : capacityOk (execOps ops) := by
  have hgen : ∀ (l : List VideoOp) (s : VStore), capacityOk s →
      capacityOk (l.foldl (fun s op => (step s op).1) s) := by
    intro l
    induction l with
    | nil => intro s hs; simpa using hs
    | cons op rest ih =>
      intro s hs
      exact ih _ (capacityOk_step s op hs)
  exact hgen ops emptyStore (by intro d hd; simp [emptyStore] at hd)

theorem capEight_addParticipant {s s' : VStore} {rid uid sid : String}
    (hok : addParticipant s rid uid sid = .ok s') (hinv : capEight s) :
    capEight s' := by
  unfold addParticipant at hok
  cases hfind : findRoom s rid with
  | none => simp [hfind] at hok
  | some d =>
    simp only [hfind] at hok
    by_cases hfull : d.participants.length ≥ JsUtil.orNat d.readMax 10
    · simp [hfull] at hok
    · simp only [hfull, if_false] at hok
      injection hok with hok
      subst hok
      intro x hx
      simp only [upsertPart] at hx
      rcases mem_upsertRoom hx with rfl | hx'
      · by_cases hmem : uid ∈ d.participants
        · simpa [hmem] using hinv d (findRoom_mem hfind)
        · simpa [hmem] using hinv d (findRoom_mem hfind)
      · exact hinv x hx'

theorem capEight_removeParticipant {s s' : VStore} {rid uid : String}
    (hok : removeParticipant s rid uid = .ok s') (hinv : capEight s) :
    capEight s' := by
  unfold removeParticipant at hok
  cases hfind : findRoom s rid with
  | none => simp [hfind] at hok
  | some d =>
    simp only [hfind] at hok
    injection hok with hok
    subst hok
    intro x hx
    simp only [removePart] at hx
    rcases mem_upsertRoom hx with rfl | hx'
    · exact hinv d (findRoom_mem hfind)
    · exact hinv x hx'

theorem capEight_step (s : VStore) (op : VideoOp) (hinv : capEight s) :
    capEight (step s op).1 := by
  cases op with
  | create req host sid rid code =>
    have hmid : capEight (upsertRoom s
        (createRoomDoc { req with visibility := "public", maxParticipants := 8 }
          host rid code)) := by
      intro x hx
      rcases mem_upsertRoom hx with rfl | hx'
      · simp [createRoomDoc, JsUtil.orNat]
      · exact hinv x hx'
    simp only [step, handleCreateRoom]
    cases hadd : addParticipant (upsertRoom s
        (createRoomDoc { req with visibility := "public", maxParticipants := 8 }
          host rid code)) rid host sid with
    | ok s2 => simpa [hadd] using capEight_addParticipant hadd hmid
    | error e => simpa [hadd] using hmid
  | join uid sid rid code =>
    simp only [step, handleJoinRoom]
    cases hres : resolveRoom s rid code with
    | none => simpa using hinv
    | some d =>
      by_cases hfull : d.participants.length ≥ JsUtil.orNat d.readMax 8
      · simpa [hfull] using hinv
      · simp only [hfull, if_false]
        cases hadd : addParticipant s d.id uid sid with
        | ok s1 => simpa using capEight_addParticipant hadd hinv
        | error e => simpa using hinv
  | leave uid rid =>
    simp only [step, handleLeaveRoom]
    cases hrem : removeParticipant s rid uid with
    | ok s1 => simpa using capEight_removeParticipant hrem hinv
    | error e => simpa using hinv

theorem capEight_execOps (ops : List VideoOp) : capEight (execOps ops) := by
  have hgen : ∀ (l : List VideoOp) (s : VStore), capEight s →
      capEight (l.foldl (fun s op => (step s op).1) s) := by
    intro l
    induction l with
    | nil => intro s hs; simpa using hs
    | cons op rest ih =>
      intro s hs
      exact ih _ (capEight_step s op hs)
  exact hgen ops emptyStore (by intro d hd; simp [emptyStore] at hd)

theorem capacityLiteral_execOps (ops : List VideoOp) :
    capacityLiteral (execOps ops) := by
  intro d hd
  have h1 := capacityOk_execOps ops d hd
  have h2 := capEight_execOps ops d hd
  simpa [VRoomDoc.readMax, h2, JsUtil.orNat] using h1

end Video

namespace ChatCode

theorem codeLoop_fst (ex : String → Bool) (gen : Nat → String) :
    ∀ code a, code = gen a →
      (codeLoop ex gen code a).1 = gen (codeLoop ex gen code a).2 := by
  intro code a
  induction code, a using codeLoop.induct ex gen with
  | case1 code attempts h ih =>
    intro hca
    rw [codeLoop, dif_pos h]
    exact ih rfl
  | case2 code attempts h =>
    intro hca
    rw [codeLoop, dif_neg h]
    exact hca

theorem codeLoop_le (ex : String → Bool) (gen : Nat → String) :
    ∀ code a, a ≤ 10 → (codeLoop ex gen code a).2 ≤ 10 := by
  intro code a
  induction code, a using codeLoop.induct ex gen with
  | case1 code attempts h ih =>
    intro _
    rw [codeLoop, dif_pos h]
    exact ih (by omega)
  | case2 code attempts h =>
    intro ha
    rw [codeLoop, dif_neg h]
    exact ha

theorem codeLoop_exit (ex : String → Bool) (gen : Nat → String) :
    ∀ code a, (codeLoop ex gen code a).2 < 10 →
      ex (codeLoop ex gen code a).1 = false := by
  intro code a
  induction code, a using codeLoop.induct ex gen with
  | case1 code attempts h ih =>
    rw [codeLoop, dif_pos h]
    exact ih
  | case2 code attempts h =>
    rw [codeLoop, dif_neg h]
    intro hlt
    cases hb : ex code with
    | false => rfl
    | true => exact absurd ⟨hb, hlt⟩ h

theorem codeLoop_fail_sound (ex : String → Bool) (gen : Nat → String) :
    ∀ code a, code = gen a → 10 ≤ (codeLoop ex gen code a).2 →
      ∀ k, a ≤ k → k < 10 → ex (gen k) = true := by
  intro code a
  induction code, a using codeLoop.induct ex gen with
  | case1 code attempts h ih =>
    intro hca hfail k hk1 hk2
    rcases Nat.eq_or_lt_of_le hk1 with rfl | hlt
    · subst hca; exact h.1
    · rw [codeLoop, dif_pos h] at hfail
      exact ih rfl hfail k hlt hk2
  | case2 code attempts h =>
    intro hca hfail k hk1 hk2
    rw [codeLoop, dif_neg h] at hfail
    omega

theorem codeLoop_fail_complete (ex : String → Bool) (gen : Nat → String) :
    ∀ code a, code = gen a → a ≤ 10 →
      (∀ k, a ≤ k → k < 10 → ex (gen k) = true) →
      (codeLoop ex gen code a).2 = 10 := by
  intro code a
  induction code, a using codeLoop.induct ex gen with
  | case1 code attempts h ih =>
    intro hca ha hall
    rw [codeLoop, dif_pos h]
    exact ih rfl (by omega) (fun k hk1 hk2 => hall k (by omega) hk2)
  | case2 code attempts h =>
    intro hca ha hall
    rw [codeLoop, dif_neg h]
    rcases Nat.eq_or_lt_of_le ha with rfl | hlt
    · rfl
    · have := hall attempts (Nat.le_refl _) hlt
      subst hca
      exact absurd ⟨this, hlt⟩ h

theorem generateRoomCode_length (draws : Fin 6 → Fin 36) :
    (generateRoomCode draws).length = 6 := by
  simp [generateRoomCode, String.length]

theorem generateRoomCode_alphabet (draws : Fin 6 → Fin 36) :
    ∀ ch ∈ (generateRoomCode draws).data, ch ∈ codeAlphabet := by
  intro ch hch
  simp only [generateRoomCode, String.mk, List.mem_map] at hch
  obtain ⟨i, _, rfl⟩ := hch
  have hlen : codeAlphabet.length = 36 := rfl
  have hlt : (draws i).val < codeAlphabet.length := by
    rw [hlen]; exact (draws i).isLt
  rw [List.getD_eq_getElem codeAlphabet 'A' hlt]
  exact List.getElem_mem hlt

end ChatCode

/-! ## Claim theorems -/

/-- C10 (counterexample): `convertToDate` on the number `0` takes the falsy
branch and returns the current clock value (here 999), not the
seconds-since-epoch reading `0 * 1000` the claim assigns to every number not
greater than 1e12. -/
theorem convertToDate_zero_counterexample :
    TsConv.convertToDate (fun _ => none) 999 (.num 0) = 999 ∧ (999 : Int) ≠ 0 * 1000 := by
  exact ⟨rfl, by decide⟩

/-- C10 (amended): `convertToDate` is total and returns, case by case:
the current time on every falsy input (including the number `0`, `NaN` and
the empty string); the denoted instant for Dates and Firestore Timestamps;
milliseconds for numbers above 1e12 and a seconds reading for other nonzero
numbers; the parsed instant for parseable nonempty strings; and the current
time for everything else. -/
theorem convertToDate_total_amended :
    ∀ (parse : String → Option Int) (nowMs : Int) (t : TsConv.TsInput),
      (TsConv.falsy t = true → TsConv.convertToDate parse nowMs t = nowMs) ∧
      (∀ ms, t = .date ms → TsConv.convertToDate parse nowMs t = ms) ∧
      (∀ ms, t = .fsTimestamp ms → TsConv.convertToDate parse nowMs t = ms) ∧
      (∀ n, t = .num n → n ≠ 0 →
        TsConv.convertToDate parse nowMs t =
          if n > 1000000000000 then n else n * 1000) ∧
      (∀ s ms, t = .str s → s ≠ "" → parse s = some ms →
        TsConv.convertToDate parse nowMs t = ms) ∧
      (∀ s, t = .str s → s ≠ "" → parse s = none →
        TsConv.convertToDate parse nowMs t = nowMs) ∧
      (t = .otherObj → TsConv.convertToDate parse nowMs t = nowMs) := by
  intro parse nowMs t
  refine ⟨?_, ?_, ?_, ?_, ?_, ?_, ?_⟩
  · intro hf
    simp [TsConv.convertToDate, hf]
  · rintro ms rfl
    simp [TsConv.convertToDate, TsConv.falsy]
  · rintro ms rfl
    simp [TsConv.convertToDate, TsConv.falsy]
  · rintro n rfl hn
    simp [TsConv.convertToDate, TsConv.falsy, hn]
  · rintro s ms rfl hs hp
    simp [TsConv.convertToDate, TsConv.falsy, hs, hp]
  · rintro s rfl hs hp
    simp [TsConv.convertToDate, TsConv.falsy, hs, hp]
  · rintro rfl
    simp [TsConv.convertToDate, TsConv.falsy]

/-- C10 (witness): the amended theorem evaluated at concrete inputs from
each interesting case. -/
theorem convertToDate_total_amended_witness :
    TsConv.convertToDate (fun _ => none) 7 .null = 7 ∧
    TsConv.convertToDate (fun _ => none) 7 (.date 5) = 5 ∧
    TsConv.convertToDate (fun _ => none) 7 (.fsTimestamp 9) = 9 ∧
    TsConv.convertToDate (fun _ => none) 7 (.num 3) = 3000 ∧
    TsConv.convertToDate (fun _ => some 42) 7 (.str "x") = 42 := by
  refine ⟨?_, ?_, ?_, ?_, ?_⟩
  · exact (convertToDate_total_amended (fun _ => none) 7 .null).1 (by decide)
  · exact (convertToDate_total_amended (fun _ => none) 7 (.date 5)).2.1 5 rfl
  · exact (convertToDate_total_amended (fun _ => none) 7 (.fsTimestamp 9)).2.2.1 9 rfl
  · have := (convertToDate_total_amended (fun _ => none) 7 (.num 3)).2.2.2.1 3 rfl (by decide)
    simpa using this
  · exact (convertToDate_total_amended (fun _ => some 42) 7 (.str "x")).2.2.2.2.1 "x" 42 rfl
      (by decide) rfl

/-- C9 (counterexample): the gateway health object has no `backends` key;
the upstream map sits under the key `services`. -/
theorem gateway_health_backends_counterexample :
    (Gateway.healthHandler ⟨"http://a", "http://c", "http://v"⟩ "t0").lookup "backends" = none ∧
    (Gateway.healthHandler ⟨"http://a", "http://c", "http://v"⟩ "t0").keys =
      ["status", "service", "timestamp", "services"] := by
  exact ⟨rfl, rfl⟩

/-- C9 (amended): `GET /health` is a pure function of configuration and
clock returning exactly the keys `status`, `service`, `timestamp` and
`services`, where `services` maps `auth`, `chat` and `video` to the
configured upstream URLs. -/
theorem gateway_health_shape_amended :
    ∀ (cfg : Gateway.Config) (nowIso : String),
      (Gateway.healthHandler cfg nowIso).keys =
        ["status", "service", "timestamp", "services"] ∧
      (Gateway.healthHandler cfg nowIso).lookup "status" = some (.str "ok") ∧
      (Gateway.healthHandler cfg nowIso).lookup "service" = some (.str "api-gateway") ∧
      (Gateway.healthHandler cfg nowIso).lookup "timestamp" = some (.str nowIso) ∧
      (Gateway.healthHandler cfg nowIso).lookup "services" =
        some (.obj [("auth", .str cfg.authUrl), ("chat", .str cfg.chatUrl),
                    ("video", .str cfg.videoUrl)]) := by
  intro cfg nowIso
  exact ⟨rfl, rfl, rfl, rfl, rfl⟩

/-- C2 (counterexample): a second session of the same user connects; the
engine still broadcasts `user:online` although this is not the first session
registered for that user. -/
theorem presence_online_counterexample :
    (Presence.handleConnection [("u1", ["s1"])] "u1" "s2").2 =
      [Presence.PEvent.online "u1"] ∧
    Presence.firstSession [("u1", ["s1"])] "u1" = false := by
  exact ⟨rfl, rfl⟩

/-- C2 (amended): every connect broadcasts `user:online` (whether or not it
is the first session of the user); a disconnect broadcasts `user:offline`
exactly when removing the socket leaves the registered session set of the
user empty, and broadcasts nothing when the user has no entry. -/
theorem presence_broadcast_amended :
    ∀ (m : Presence.PMap) (uid sid : String),
      (Presence.handleConnection m uid sid).2 = [.online uid] ∧
      (∀ socks, Presence.lookup m uid = some socks →
        ((Presence.handleDisconnection m uid sid).2 = [.offline uid] ↔
          socks.erase sid = [])) ∧
      (Presence.lookup m uid = none → (Presence.handleDisconnection m uid sid).2 = []) := by
  intro m uid sid
  refine ⟨rfl, ?_, ?_⟩
  · intro socks hl
    unfold Presence.handleDisconnection
    rw [hl]
    by_cases he : (socks.erase sid).isEmpty
    · simp only [he, if_true]
      simp only [List.isEmpty_iff] at he
      simp [he]
    · simp only [he, if_false]
      simp only [List.isEmpty_iff] at he
      simp [he]
  · intro hl
    unfold Presence.handleDisconnection
    rw [hl]

/-- C2 (witness): the amended theorem at a concrete registry, one user with
two live sessions: disconnecting one of them stays silent, and the broadcast
of the sole remaining session disconnect is exactly the empty-set case. -/
theorem presence_broadcast_amended_witness :
    (Presence.handleConnection [("u1", ["s1"])] "u1" "s2").2 = [.online "u1"] ∧
    ((Presence.handleDisconnection [("u1", ["s1", "s2"])] "u1" "s1").2 = [.offline "u1"] ↔
      (["s1", "s2"].erase "s1" = ([] : List String))) ∧
    (Presence.handleDisconnection [("u1", ["s1", "s2"])] "u2" "s1").2 = [] := by
  refine ⟨(presence_broadcast_amended [("u1", ["s1"])] "u1" "s2").1, ?_, ?_⟩
  · exact (presence_broadcast_amended [("u1", ["s1", "s2"])] "u1" "s1").2.1
      ["s1", "s2"] rfl
  · exact (presence_broadcast_amended [("u1", ["s1", "s2"])] "u2" "s1").2.2 rfl

/-- C3 (counterexample): `VideoService.createRoom` with `maxParticipants`
absent produces a room with `maxParticipants = 10`, not the claimed default
of 8. -/
theorem video_max_default_counterexample :
    (Video.createRoomDoc ⟨"Meet", 0, ""⟩ "h1" "r1" "CODE01").maxParticipants = 10 ∧
    (10 : Nat) ≠ 8 := by
  exact ⟨rfl, by decide⟩

/-- C3 (amended): the service default for an absent `maxParticipants` is 10;
the `video:room:create` controller path forces 8, so the room stored by
`handleCreateRoom` always carries `maxParticipants = 8`. -/
theorem video_max_participants_amended :
    (∀ (data : Video.CreateReq) (host rid code : String), data.maxParticipants = 0 →
      (Video.createRoomDoc data host rid code).maxParticipants = 10) ∧
    (∀ (s : Video.VStore) (req : Video.CreateReq) (host sid rid code : String)
      (d : Video.VRoomDoc),
      Video.findRoom (Video.handleCreateRoom s req host sid rid code).1 rid = some d →
      d.maxParticipants = 8) := by
  constructor
  · intro data host rid code h0
    simp [Video.createRoomDoc, JsUtil.orNat, h0]
  · intro s req host sid rid code d hfind
    have hdoc : Video.findRoom (Video.handleCreateRoom s req host sid rid code).1 rid =
        some (Video.createRoomDoc { req with visibility := "public", maxParticipants := 8 }
          host rid code) := by
      simp [Video.handleCreateRoom, Video.addParticipant, Video.findRoom, Video.upsertRoom,
            Video.upsertPart, Video.createRoomDoc, Video.VRoomDoc.readMax, JsUtil.orNat]
    rw [hdoc] at hfind
    injection hfind with h
    rw [← h]
    simp [Video.createRoomDoc, JsUtil.orNat]

/-- C3 (witness): the amended theorem at a concrete creation request with an
absent cap, and a concrete `video:room:create` on the empty store. -/
theorem video_max_participants_amended_witness :
    (Video.createRoomDoc ⟨"Meet", 0, ""⟩ "h1" "r1" "C1").maxParticipants = 10 ∧
    ((Video.findRoom
        (Video.handleCreateRoom Video.emptyStore ⟨"Meet", 0, ""⟩ "h1" "s1" "r1" "C1").1
        "r1").getD ⟨"", "", "", [], 0, "", ""⟩).maxParticipants = 8 := by
  constructor
  · exact video_max_participants_amended.1 ⟨"Meet", 0, ""⟩ "h1" "r1" "C1" rfl
  · cases hfind : Video.findRoom
        (Video.handleCreateRoom Video.emptyStore ⟨"Meet", 0, ""⟩ "h1" "s1" "r1" "C1").1
        "r1" with
    | none => exact absurd hfind (by decide)
    | some d =>
      have h8 := video_max_participants_amended.2 Video.emptyStore ⟨"Meet", 0, ""⟩
        "h1" "s1" "r1" "C1" d hfind
      simp [h8]

/-- C5: `room:join` error handling for private rooms: an unknown room id
yields `ROOM_NOT_FOUND`; a non-participant joining a private room needs a
code (`CODE_REQUIRED` when missing, `INVALID_CODE` when its upper-casing
differs from the stored code); an existing participant joins a private room
with no code at all. -/
theorem chat_join_room_code_checks :
    (∀ (s : Chat.ChatStore) (uid rid : String) (code : Option String),
      Chat.getRoom s rid = none →
      Chat.handleJoinRoom s uid rid code = (.error "ROOM_NOT_FOUND", s)) ∧
    (∀ (s : Chat.ChatStore) (uid rid : String) (room : Chat.CRoomDoc),
      Chat.getRoom s rid = some room → room.visibility = "private" →
      Chat.isParticipant s rid uid = false →
      Chat.handleJoinRoom s uid rid none = (.error "CODE_REQUIRED", s)) ∧
    (∀ (s : Chat.ChatStore) (uid rid c rc : String) (room : Chat.CRoomDoc),
      Chat.getRoom s rid = some room → room.visibility = "private" →
      Chat.isParticipant s rid uid = false → room.code = some rc →
      c ≠ "" → JsUtil.toUpperStr c ≠ rc →
      Chat.handleJoinRoom s uid rid (some c) = (.error "INVALID_CODE", s)) ∧
    (∀ (s : Chat.ChatStore) (uid rid : String) (room : Chat.CRoomDoc),
      Chat.getRoom s rid = some room → room.visibility = "private" →
      Chat.isParticipant s rid uid = true →
      (Chat.handleJoinRoom s uid rid none).1 = .joined rid) := by
  refine ⟨?_, ?_, ?_, ?_⟩
  · intro s uid rid code hnone
    unfold Chat.handleJoinRoom
    rw [hnone]
  · intro s uid rid room hsome hpriv hnp
    unfold Chat.handleJoinRoom
    rw [hsome]
    simp [hpriv, hnp, JsUtil.optFalsy]
  · intro s uid rid c rc room hsome hpriv hnp hcode hc hne
    unfold Chat.handleJoinRoom
    rw [hsome]
    have hfalsy : JsUtil.optFalsy (some c) = false := by
      simp [JsUtil.optFalsy, hc]
    have hmism : room.code ≠ some (JsUtil.toUpperStr c) := by
      rw [hcode]
      intro h
      injection h with h2
      exact hne h2.symm
    simp [hpriv, hnp, hfalsy, hmism]
  · intro s uid rid room hsome hpriv hp
    unfold Chat.handleJoinRoom
    rw [hsome]
    simp [hpriv, hp, Chat.joinCommit]

/-- C5 (witness): the four branches at concrete stores: a missing room, a
private room approached without and with a wrong code, and an existing
participant joining code-free. -/
theorem chat_join_room_code_checks_witness :
    Chat.handleJoinRoom ⟨[], []⟩ "u1" "r0" none = (.error "ROOM_NOT_FOUND", ⟨[], []⟩) ∧
    Chat.handleJoinRoom ⟨[⟨"r1", "X", "group", "private", some "ABC123", ["o1"], "o1"⟩], []⟩
      "u1" "r1" none =
      (.error "CODE_REQUIRED",
        ⟨[⟨"r1", "X", "group", "private", some "ABC123", ["o1"], "o1"⟩], []⟩) ∧
    Chat.handleJoinRoom ⟨[⟨"r1", "X", "group", "private", some "ABC123", ["o1"], "o1"⟩], []⟩
      "u1" "r1" (some "zzzzzz") =
      (.error "INVALID_CODE",
        ⟨[⟨"r1", "X", "group", "private", some "ABC123", ["o1"], "o1"⟩], []⟩) ∧
    (Chat.handleJoinRoom ⟨[⟨"r1", "X", "group", "private", some "ABC123", ["o1"], "o1"⟩], []⟩
      "o1" "r1" none).1 = .joined "r1" := by
  refine ⟨?_, ?_, ?_, ?_⟩
  · exact chat_join_room_code_checks.1 ⟨[], []⟩ "u1" "r0" none rfl
  · exact chat_join_room_code_checks.2.1
      ⟨[⟨"r1", "X", "group", "private", some "ABC123", ["o1"], "o1"⟩], []⟩
      "u1" "r1" ⟨"r1", "X", "group", "private", some "ABC123", ["o1"], "o1"⟩
      rfl rfl (by decide)
  · exact chat_join_room_code_checks.2.2.1
      ⟨[⟨"r1", "X", "group", "private", some "ABC123", ["o1"], "o1"⟩], []⟩
      "u1" "r1" "zzzzzz" "ABC123" ⟨"r1", "X", "group", "private", some "ABC123", ["o1"], "o1"⟩
      rfl rfl (by decide) rfl (by decide) (by decide)
  · exact chat_join_room_code_checks.2.2.2
      ⟨[⟨"r1", "X", "group", "private", some "ABC123", ["o1"], "o1"⟩], []⟩
      "o1" "r1" ⟨"r1", "X", "group", "private", some "ABC123", ["o1"], "o1"⟩
      rfl rfl (by decide)

/-- C8: `room:leave` only drops the channel subscription: the persisted
store (rooms, participants, messages) is untouched, the session is
unsubscribed, and `room:user-left` goes to exactly the remaining
subscribers of the room. -/
theorem chat_leave_room_frame :
    ∀ (st : Chat.EngineState) (uid sid rid : String),
      (Chat.handleLeaveRoom st uid sid rid).1.store = st.store ∧
      (Chat.handleLeaveRoom st uid sid rid).1.subs =
        st.subs.filter (fun p => ¬(p.1 = rid ∧ p.2 = sid)) ∧
      (Chat.handleLeaveRoom st uid sid rid).2 =
        [.userLeftTo (Chat.subscribersOf (Chat.handleLeaveRoom st uid sid rid).1 rid) rid uid,
         .roomLeftTo sid rid] := by
  intro st uid sid rid
  refine ⟨rfl, rfl, ?_⟩
  unfold Chat.handleLeaveRoom Chat.subscribersOf
  simp only
  have hfilters :
      (st.subs.filter (fun p => ¬(p.1 = rid ∧ p.2 = sid))).filter
        (fun p => p.1 = rid ∧ p.2 ≠ sid) =
      (st.subs.filter (fun p => ¬(p.1 = rid ∧ p.2 = sid))).filter
        (fun p => p.1 = rid) := by
    apply List.filter_congr
    intro p hp
    have hnot : ¬(p.1 = rid ∧ p.2 = sid) := by
      have hdec := List.of_mem_filter hp
      exact of_decide_eq_true hdec
    apply decide_eq_decide.mpr
    constructor
    · intro h
      exact h.1
    · intro h
      exact ⟨h, fun h2 => hnot ⟨h, h2⟩⟩
  rw [hfilters]

/-- C6: a `video:signal` from a room participant with valid payload and no
target is rejected with `MUST_INCLUDE_TARGET` when its kind is `offer`,
while an `ice-candidate` outside the duplicate-suppression window is
delivered to every socket subscribed to the room except the sender. -/
theorem video_signal_target_rules :
    ∀ (c : Signal.Ctx) (inp : Signal.SignalInput) (room : Video.VRoomDoc),
      Video.findRoom c.store inp.roomId = some room →
      inp.senderUid ∈ room.participants →
      inp.roomId ≠ "" →
      JsUtil.optFalsy inp.payload = false →
      inp.targetUserId = none →
      (inp.type = "offer" → Signal.handleSignal c inp = .errorCode "MUST_INCLUDE_TARGET") ∧
      (inp.type = "ice-candidate" →
        (inp.roomId, Signal.makeSignalId inp.type inp.senderUid none inp.payload) ∉ c.recent →
        Signal.handleSignal c inp =
          .delivered ((Signal.fetchSockets c inp.roomId).filter
            (fun sid => sid ≠ inp.senderSocket))) := by
  intro c inp room hroom hmem hrid hpayload htarget
  simp only [JsUtil.optFalsy] at hpayload
  constructor
  · intro htype
    unfold Signal.handleSignal
    simp [htype, hrid, hpayload, hroom, hmem, htarget, JsUtil.optFalsy]
  · intro htype hnotrecent
    rw [htype] at hnotrecent
    unfold Signal.handleSignal
    simp [htype, hrid, hpayload, hroom, hmem, htarget, hnotrecent, JsUtil.optFalsy]

/-- C6 (witness): a concrete room with three subscribed sockets: the
untargeted offer is rejected, the untargeted ice candidate reaches the two
non-sender sockets. -/
theorem video_signal_target_rules_witness :
    Signal.handleSignal
      ⟨⟨[⟨"r1", "Room", "u1", ["u1", "u2"], 8, "public", "C1"⟩], []⟩, [],
        [("r1", "sockA"), ("r1", "sockB"), ("r1", "sockC")]⟩
      ⟨"offer", "r1", none, some "sdp", "u1", "sockA"⟩ =
      .errorCode "MUST_INCLUDE_TARGET" ∧
    Signal.handleSignal
      ⟨⟨[⟨"r1", "Room", "u1", ["u1", "u2"], 8, "public", "C1"⟩], []⟩, [],
        [("r1", "sockA"), ("r1", "sockB"), ("r1", "sockC")]⟩
      ⟨"ice-candidate", "r1", none, some "cand", "u1", "sockA"⟩ =
      .delivered ["sockB", "sockC"] := by
  constructor
  · exact (video_signal_target_rules
      ⟨⟨[⟨"r1", "Room", "u1", ["u1", "u2"], 8, "public", "C1"⟩], []⟩, [],
        [("r1", "sockA"), ("r1", "sockB"), ("r1", "sockC")]⟩
      ⟨"offer", "r1", none, some "sdp", "u1", "sockA"⟩
      ⟨"r1", "Room", "u1", ["u1", "u2"], 8, "public", "C1"⟩
      rfl (by decide) (by decide) rfl rfl).1 rfl
  · have h := (video_signal_target_rules
      ⟨⟨[⟨"r1", "Room", "u1", ["u1", "u2"], 8, "public", "C1"⟩], []⟩, [],
        [("r1", "sockA"), ("r1", "sockB"), ("r1", "sockC")]⟩
      ⟨"ice-candidate", "r1", none, some "cand", "u1", "sockA"⟩
      ⟨"r1", "Room", "u1", ["u1", "u2"], 8, "public", "C1"⟩
      rfl (by decide) (by decide) rfl rfl).2 rfl (by decide)
    exact h.trans (by decide)

/-- C1: a `video:room:join` that resolves to a room whose participant list
already fills its capacity fails with `ROOM_FULL` and leaves the store
untouched; and every store reachable from the empty store by
create/join/leave sequences satisfies
`participants.length ≤ maxParticipants` for every room. -/
theorem video_join_room_full_and_capacity :
    (∀ (s : Video.VStore) (uid sid : String) (roomId code : Option String)
      (d : Video.VRoomDoc),
      Video.resolveRoom s roomId code = some d →
      d.readMax ≤ d.participants.length →
      Video.handleJoinRoom s uid sid roomId code = (s, [.error "ROOM_FULL"])) ∧
    (∀ ops : List Video.VideoOp, Video.capacityLiteral (Video.execOps ops)) := by
  constructor
  · intro s uid sid roomId code d hres hfull
    have h8 : JsUtil.orNat d.readMax 8 = d.readMax :=
      JsUtil.orNat_of_pos _ _ (Video.readMax_pos d)
    simp only [Video.handleJoinRoom, hres]
    rw [h8, if_pos hfull]
  · exact Video.capacityLiteral_execOps

/-- C1 (witness): a one-slot room already holding its host rejects a second
join with `ROOM_FULL` and stays as it was; the invariant applied to a
concrete create-then-join run. -/
theorem video_join_room_full_and_capacity_witness :
    Video.handleJoinRoom ⟨[⟨"r1", "Room", "h1", ["h1"], 1, "public", "C1"⟩], []⟩
      "u2" "s2" (some "r1") none =
      (⟨[⟨"r1", "Room", "h1", ["h1"], 1, "public", "C1"⟩], []⟩, [.error "ROOM_FULL"]) ∧
    Video.capacityLiteral (Video.execOps
      [.create ⟨"M", 0, ""⟩ "h1" "s1" "r1" "C1", .join "u2" "s2" (some "r1") none]) := by
  constructor
  · exact video_join_room_full_and_capacity.1
      ⟨[⟨"r1", "Room", "h1", ["h1"], 1, "public", "C1"⟩], []⟩
      "u2" "s2" (some "r1") none ⟨"r1", "Room", "h1", ["h1"], 1, "public", "C1"⟩
      rfl (by decide)
  · exact video_join_room_full_and_capacity.2 _

/-- C7: `messages:get` by a participant returns the room messages in
chronological order with all but the last `limit` entries dropped; the
chronological ordering is sorted by timestamp and is a permutation of the
room messages; `limit = 0` yields the empty list without error. -/
theorem chat_get_messages_page :
    ∀ (s : Chat.ChatStore) (uid rid : String) (lim : Nat) (room : Chat.CRoomDoc),
      Chat.getRoom s rid = some room → uid ∈ room.participants →
      (Chat.handleGetMessages s uid rid (some lim) none =
        .messagesList ((Chat.queryDesc s rid).reverse.drop
          ((Chat.queryDesc s rid).length - lim))) ∧
      (Chat.queryDesc s rid).reverse.Pairwise Chat.tsLE ∧
      (Chat.queryDesc s rid).reverse.Perm (Chat.roomMessages s rid) ∧
      (lim = 0 → Chat.handleGetMessages s uid rid (some lim) none = .messagesList []) := by
  intro s uid rid lim room hroom hmem
  have hpart : Chat.isParticipant s rid uid = true := by
    unfold Chat.isParticipant
    rw [hroom]
    exact decide_eq_true hmem
  have hmain : Chat.handleGetMessages s uid rid (some lim) none =
      .messagesList ((Chat.queryDesc s rid).reverse.drop
        ((Chat.queryDesc s rid).length - lim)) := by
    unfold Chat.handleGetMessages
    rw [hpart]
    simp only [Bool.true_eq_false, if_false, Option.getD_some]
    unfold Chat.getMessages
    simp only []
    rw [List.reverse_take]
  refine ⟨hmain, ?_, ?_, ?_⟩
  · apply List.pairwise_reverse.mpr
    exact List.sorted_insertionSort Chat.tsGE (Chat.roomMessages s rid)
  · exact (List.reverse_perm _).trans (List.perm_insertionSort _ _)
  · intro h0
    subst h0
    rw [hmain]
    simp

/-- C7 (witness): a three-message room read with `limit = 2` returns the two
newest messages oldest-first; `limit = 0` returns the empty list. -/
theorem chat_get_messages_page_witness :
    Chat.handleGetMessages
      ⟨[⟨"r1", "X", "group", "public", none, ["u1"], "u1"⟩],
        [⟨"m1", "r1", "u1", "a", 1⟩, ⟨"m2", "r1", "u1", "b", 3⟩, ⟨"m3", "r1", "u1", "c", 2⟩]⟩
      "u1" "r1" (some 2) none =
      .messagesList [⟨"m3", "r1", "u1", "c", 2⟩, ⟨"m2", "r1", "u1", "b", 3⟩] ∧
    Chat.handleGetMessages
      ⟨[⟨"r1", "X", "group", "public", none, ["u1"], "u1"⟩],
        [⟨"m1", "r1", "u1", "a", 1⟩, ⟨"m2", "r1", "u1", "b", 3⟩, ⟨"m3", "r1", "u1", "c", 2⟩]⟩
      "u1" "r1" (some 0) none = .messagesList [] := by
  constructor
  · have h := (chat_get_messages_page
      ⟨[⟨"r1", "X", "group", "public", none, ["u1"], "u1"⟩],
        [⟨"m1", "r1", "u1", "a", 1⟩, ⟨"m2", "r1", "u1", "b", 3⟩, ⟨"m3", "r1", "u1", "c", 2⟩]⟩
      "u1" "r1" 2 ⟨"r1", "X", "group", "public", none, ["u1"], "u1"⟩ rfl (by decide)).1
    exact h.trans (by decide)
  · exact (chat_get_messages_page
      ⟨[⟨"r1", "X", "group", "public", none, ["u1"], "u1"⟩],
        [⟨"m1", "r1", "u1", "a", 1⟩, ⟨"m2", "r1", "u1", "b", 3⟩, ⟨"m3", "r1", "u1", "c", 2⟩]⟩
      "u1" "r1" 0 ⟨"r1", "X", "group", "public", none, ["u1"], "u1"⟩ rfl (by decide)).2.2.2 rfl

/-- C4 (counterexample): with an oracle under which the first ten generated
codes collide but the eleventh does not, room creation still fails — so
"fails if and only if all generated codes collide" is false: the final
generated code is collision-free, yet the loop gives up because the attempt
counter reached 10 before consulting it. -/
theorem chat_code_generation_counterexample :
    ChatCode.createRoom ⟨"X", "group", "private", []⟩ "u1" "r1"
      (fun c => c != "K") (fun n => if n = 10 then "K" else "A") =
      .error "Failed to generate unique room code" ∧
    (fun (c : String) => c != "K") ((fun (n : Nat) => if n = 10 then "K" else "A") 10) =
      false := by
  constructor
  · have hall : ∀ k, 0 ≤ k → k < 10 →
        (fun (c : String) => c != "K") ((fun (n : Nat) => if n = 10 then "K" else "A") k) =
          true := by
      intro k _ hk
      have hne : k ≠ 10 := by omega
      simp [hne]
    have hC := ChatCode.codeLoop_fail_complete (fun c => c != "K")
      (fun n => if n = 10 then "K" else "A") "A" 0 rfl (by omega) hall
    unfold ChatCode.createRoom
    rw [if_neg (by decide), if_pos (by decide)]
    simp [hC]
  · decide

/-- C4 (amended): for a private room, creation fails (with the thrown
"Failed to generate unique room code", surfaced by the controller as
`CREATE_ROOM_ERROR`) if and only if the first ten generated codes — the
initial one and nine regenerations — all collide; on success the room
carries the final generated code, which does not collide; every generated
code has exactly 6 characters over `[A-Z0-9]`. -/
theorem chat_code_generation_amended :
    ∀ (ex : String → Bool) (draws : Nat → Fin 6 → Fin 36)
      (data : ChatCode.CreateRoomData) (createdBy roomId : String),
      data.visibility = "private" → data.name ≠ "" → data.type ≠ "" →
      ((∃ e, ChatCode.createRoom data createdBy roomId ex
          (fun n => ChatCode.generateRoomCode (draws n)) = .error e) ↔
        ∀ k, k < 10 → ex (ChatCode.generateRoomCode (draws k)) = true) ∧
      (∀ room, ChatCode.createRoom data createdBy roomId ex
          (fun n => ChatCode.generateRoomCode (draws n)) = .ok room →
        ∃ m, m < 10 ∧ room.code = some (ChatCode.generateRoomCode (draws m)) ∧
          ex (ChatCode.generateRoomCode (draws m)) = false) ∧
      (∀ n, (ChatCode.generateRoomCode (draws n)).length = 6 ∧
        ∀ ch ∈ (ChatCode.generateRoomCode (draws n)).data, ch ∈ ChatCode.codeAlphabet) := by
  intro ex draws data createdBy roomId hvis hname htype
  have hval : ¬(data.name = "" ∨ data.type = "" ∨ data.visibility = "") := by
    push_neg
    refine ⟨hname, htype, ?_⟩
    rw [hvis]
    decide
  refine ⟨?_, ?_, ?_⟩
  · constructor
    · rintro ⟨e, he⟩
      unfold ChatCode.createRoom at he
      rw [if_neg hval, if_pos hvis] at he
      by_cases h10 : (ChatCode.codeLoop ex (fun n => ChatCode.generateRoomCode (draws n))
          (ChatCode.generateRoomCode (draws 0)) 0).2 ≥ 10
      · intro k hk
        exact ChatCode.codeLoop_fail_sound ex _ _ 0 rfl h10 k (Nat.zero_le k) hk
      · simp only [h10, if_false] at he
        cases he
    · intro hall
      have hC := ChatCode.codeLoop_fail_complete ex
        (fun n => ChatCode.generateRoomCode (draws n))
        (ChatCode.generateRoomCode (draws 0)) 0 rfl (by omega)
        (fun k _ hk => hall k hk)
      refine ⟨"Failed to generate unique room code", ?_⟩
      unfold ChatCode.createRoom
      rw [if_neg hval, if_pos hvis]
      simp [hC]
  · intro room hok
    unfold ChatCode.createRoom at hok
    rw [if_neg hval, if_pos hvis] at hok
    by_cases h10 : (ChatCode.codeLoop ex (fun n => ChatCode.generateRoomCode (draws n))
        (ChatCode.generateRoomCode (draws 0)) 0).2 ≥ 10
    · simp only [h10, if_true] at hok
      cases hok
    · simp only [h10, if_false] at hok
      have hlt : (ChatCode.codeLoop ex (fun n => ChatCode.generateRoomCode (draws n))
          (ChatCode.generateRoomCode (draws 0)) 0).2 < 10 := by omega
      have hfst := ChatCode.codeLoop_fst ex
        (fun n => ChatCode.generateRoomCode (draws n))
        (ChatCode.generateRoomCode (draws 0)) 0 rfl
      have hfst2 : (ChatCode.codeLoop ex (fun n => ChatCode.generateRoomCode (draws n))
          (ChatCode.generateRoomCode (draws 0)) 0).1 =
          ChatCode.generateRoomCode (draws ((ChatCode.codeLoop ex
            (fun n => ChatCode.generateRoomCode (draws n))
            (ChatCode.generateRoomCode (draws 0)) 0).2)) := by
        simpa using hfst
      have hex := ChatCode.codeLoop_exit ex
        (fun n => ChatCode.generateRoomCode (draws n))
        (ChatCode.generateRoomCode (draws 0)) 0 hlt
      injection hok with hinj
      refine ⟨(ChatCode.codeLoop ex (fun n => ChatCode.generateRoomCode (draws n))
          (ChatCode.generateRoomCode (draws 0)) 0).2, hlt, ?_, ?_⟩
      · rw [← hinj]
        show some (ChatCode.codeLoop ex (fun n => ChatCode.generateRoomCode (draws n))
          (ChatCode.generateRoomCode (draws 0)) 0).1 =
          some (ChatCode.generateRoomCode (draws ((ChatCode.codeLoop ex
            (fun n => ChatCode.generateRoomCode (draws n))
            (ChatCode.generateRoomCode (draws 0)) 0).2)))
        rw [hfst2]
      · rw [← hfst2]
        exact hex
  · intro n
    exact ⟨ChatCode.generateRoomCode_length (draws n),
      ChatCode.generateRoomCode_alphabet (draws n)⟩

/-- C4 (witness): the amended theorem instantiated with an oracle under
which every code collides (creation fails) and with a concrete draw stream
(every generated code is 6 characters of the alphabet). -/
theorem chat_code_generation_amended_witness :
    (∃ e, ChatCode.createRoom ⟨"X", "group", "private", []⟩ "u1" "r1" (fun _ => true)
      (fun n => ChatCode.generateRoomCode ((fun _ _ => (0 : Fin 36)) n)) = .error e) ∧
    (ChatCode.generateRoomCode ((fun (_ : Nat) (_ : Fin 6) => (0 : Fin 36)) 0)).length = 6 := by
  have h := chat_code_generation_amended (fun _ => true) (fun _ _ => (0 : Fin 36))
    ⟨"X", "group", "private", []⟩ "u1" "r1" rfl (by decide) (by decide)
  exact ⟨h.1.mpr (fun k hk => rfl), (h.2.2 0).1⟩
